import Mathlib

/-!
Shallow Lean embedding of the subdomain-enumeration engine in src/main.py
(mazixs/Get_SubDomain).  Pure string helpers model the Python str methods
used by the source; the DNS network is modelled as an oracle assigning an
outcome to every (resolver, name, record-type) query; the concurrent batch
machinery is modelled by its observable result (the set of confirmed
hostnames accumulated into the batch-local unique set, and the per-domain
sink file that each batch appends to).
-/

namespace GetSubDomain

/-- Characters stripped by Python str.strip with no argument (ASCII whitespace). -/
def isPySpace (c : Char) : Bool :=
  c == ' ' || c == '\t' || c == '\n' || c == '\r' || c == '\x0b' || c == '\x0c'

/-- Python line.strip: drop leading and trailing whitespace. -/
def pyStrip (s : String) : String :=
  String.mk (((s.data.dropWhile isPySpace).reverse.dropWhile isPySpace).reverse)

/-- Python part.isdigit for ASCII strings: nonempty and all decimal digits. -/
def pyIsDigit (s : String) : Bool :=
  !s.data.isEmpty && s.data.all (fun c => c.isDigit)

/-- Numeric value of a decimal digit string, as Python int(part) on an
all-digit string. -/
def digitsVal (s : String) : Nat :=
  s.data.foldl (fun acc c => acc * 10 + (c.toNat - 48)) 0

/-- Python int(part) restricted to digit strings: the decimal parse used by
the validator, returning none when the string is not all digits. -/
def parseDec? (s : String) : Option Nat :=
  if pyIsDigit s then some (digitsVal s) else none

/-- Split a character list at every occurrence of sep, keeping empty pieces,
as Python str.split with an explicit separator (so the empty string yields
one empty part). -/
def splitChars (sep : Char) : List Char → List (List Char)
  | [] => [[]]
  | c :: cs =>
    let r := splitChars sep cs
    if c == sep then [] :: r
    else
      match r with
      | [] => [[c]]
      | h :: t => (c :: h) :: t

/-- Python ip.split on the dot separator. -/
def pySplitDot (s : String) : List String :=
  (splitChars '.' s.data).map String.mk

/-- src/main.py is_valid_ip: split on dots; accept when there are exactly
four parts, each all-digits with value at most 255 (the Python test
0 <= int(part) is trivially true for a digit string). -/
def is_valid_ip (ip : String) : Bool :=
  (pySplitDot ip).length == 4 &&
    (pySplitDot ip).all (fun part => pyIsDigit part && decide (digitsVal part ≤ 255))

/-- src/main.py load_nameservers: the comprehension
keeps line.strip() for every raw line whose stripped form is nonempty (truthy)
and passes is_valid_ip. -/
def load_nameservers (lines : List String) : List String :=
  lines.filterMap (fun line =>
    if pyStrip line != "" && is_valid_ip (pyStrip line) then some (pyStrip line) else none)

/-- src/main.py load_subdomains: line.strip() applied to every raw line,
nothing dropped. -/
def load_subdomains (lines : List String) : List String :=
  lines.map pyStrip

/-- Validator written from the words of the spec claim: exactly four
dot-separated parts, each parsing as an integer in [0,255]. -/
def specAcceptsIp (ip : String) : Prop :=
  (pySplitDot ip).length = 4 ∧
    ∀ p ∈ pySplitDot ip, ∃ n : Nat, parseDec? p = some n ∧ n ≤ 255

/-- DNS record types queried by the program. -/
inductive RType
  | A
  | MX
  | CNAME
deriving DecidableEq, Fintype, Repr

/-- Outcome of one resolver.resolve call.  The first constructor is success;
nxdomain, noNameservers, queryTimeout and dnsError are the dnspython
exception classes named in the except clauses of src/main.py (NXDOMAIN,
NoNameservers, Timeout, and any other DNSException); fatal stands for any
exception outside the DNSException hierarchy, which no except clause in the
program catches. -/
inductive DnsOutcome
  | ok
  | nxdomain
  | noNameservers
  | queryTimeout
  | dnsError
  | fatal
deriving DecidableEq, Repr

/-- The network, as an oracle: resolver address, queried name, record type
to outcome.  Each query in the program is one application of the oracle. -/
def DnsOracle : Type :=
  String → String → RType → DnsOutcome

/-- The exception classes caught by the except clauses of src/main.py:
NXDOMAIN, NoNameservers and Timeout are subclasses of DNSException, so all
four DNS-level failures are recognized. -/
def recognizedFail : DnsOutcome → Bool
  | .nxdomain => true
  | .noNameservers => true
  | .queryTimeout => true
  | .dnsError => true
  | _ => false

/-- An oracle under which no query raises an exception outside the
DNSException hierarchy, i.e. every run of the engine completes (a fatal
outcome anywhere would crash the Python process). -/
def goodDns (dns : DnsOracle) : Prop :=
  ∀ nameserver name rt, dns nameserver name rt ≠ DnsOutcome.fatal

/-- src/main.py validate_nameserver: resolve google.com record A through the
candidate; success returns the candidate, a recognized DNS failure returns
None, anything else propagates (modelled as Except.error). -/
def validate_nameserver (dns : DnsOracle) (nameserver : String) : Except Unit (Option String) :=
  match dns nameserver "google.com" RType.A with
  | .ok => Except.ok (some nameserver)
  | .fatal => Except.error ()
  | _ => Except.ok none

/-- src/main.py check_subdomain: query A for subdomain.domain; on success run
the MX and CNAME probes (their recognized failures are swallowed by the inner
try blocks, their successes are discarded) and return the full hostname; a
recognized failure of the A query returns None; an unrecognized exception
from any of the three queries propagates. -/
def check_subdomain (dns : DnsOracle) (nameserver domain subdomain : String) :
    Except Unit (Option String) :=
  let full_subdomain := subdomain ++ "." ++ domain
  match dns nameserver full_subdomain RType.A with
  | .ok =>
    match dns nameserver full_subdomain RType.MX with
    | .fatal => Except.error ()
    | _ =>
      match dns nameserver full_subdomain RType.CNAME with
      | .fatal => Except.error ()
      | _ => Except.ok (some full_subdomain)
  | .fatal => Except.error ()
  | _ => Except.ok none

/-- check_subdomain with the MX and CNAME enrichment probes removed:
the comparison point for the spec's claim that the probes are a no-op. -/
def check_subdomain_noEnrich (dns : DnsOracle) (nameserver domain subdomain : String) :
    Except Unit (Option String) :=
  let full_subdomain := subdomain ++ "." ++ domain
  match dns nameserver full_subdomain RType.A with
  | .ok => Except.ok (some full_subdomain)
  | .fatal => Except.error ()
  | _ => Except.ok none

/-- The confirmed-hostname view of one worker on a run that does not crash:
some full hostname on success, none on a recognized failure. -/
def checkOpt (dns : DnsOracle) (domain nameserver subdomain : String) : Option String :=
  match check_subdomain dns nameserver domain subdomain with
  | .ok r => r
  | .error _ => none

/-- The confirmed hostnames a batch collects, one entry per (resolver,
candidate) task of the cross-product built by process_batch that succeeded
(before the unique set collapses duplicates). -/
def batchConfirmed (dns : DnsOracle) (domain : String)
    (valid_nameservers subdomains_batch : List String) : List String :=
  valid_nameservers.flatMap (fun nameserver =>
    subdomains_batch.filterMap (fun subdomain => checkOpt dns domain nameserver subdomain))

/-- The batch-local unique set of src/main.py process_batch, as a duplicate-free
list of the confirmed hostnames of the batch. -/
def batchUnique (dns : DnsOracle) (domain : String)
    (valid_nameservers subdomains_batch : List String) : List String :=
  (batchConfirmed dns domain valid_nameservers subdomains_batch).dedup

/-- The per-domain output file: whether it has been created on disk, and its
lines in order. -/
structure Sink where
  created : Bool
  fileLines : List String
deriving DecidableEq, Repr

/-- src/main.py process_batch as a sink transformer: run the cross-product of
tasks, collect the unique set, then open the file in append mode (creating it
if absent) and write each unique hostname as one line. -/
def process_batch (dns : DnsOracle) (domain : String)
    (valid_nameservers subdomains_batch : List String) (s : Sink) : Sink :=
  { created := true
    fileLines := s.fileLines ++ batchUnique dns domain valid_nameservers subdomains_batch }

/-- Python range(0, stop, step) for a positive step: the multiples of step
below stop, of which there are ceil(stop/step). -/
def pyRangeStep (stop step : Nat) : List Nat :=
  (List.range ((stop + step - 1) / step)).map (fun k => k * step)

/-- The batch size constant of src/main.py. -/
def batch_size : Nat := 100

/-- The slicing comprehension of src/main.py process_domain:
subdomains[i : i + B] for i in range(0, len(subdomains), B). -/
def batchesOf (B : Nat) (l : List String) : List (List String) :=
  (pyRangeStep l.length B).map (fun i => (l.drop i).take B)

/-- Fold src/main.py process_batch over a list of batches in order, starting
from a given sink state. -/
def runBatches (dns : DnsOracle) (domain : String) (valid_nameservers : List String)
    (batches : List (List String)) (s : Sink) : Sink :=
  batches.foldl (fun acc batch => process_batch dns domain valid_nameservers batch acc) s

/-- src/main.py process_domain: slice the subdomain list into batches of
batch_size and run process_batch on each in order, against a domain whose
output file does not exist yet. -/
def process_domain (dns : DnsOracle) (domain : String)
    (valid_nameservers subdomains : List String) : Sink :=
  runBatches dns domain valid_nameservers (batchesOf batch_size subdomains)
    { created := false, fileLines := [] }

/-- The confirmed resolver pool built by src/main.py main on a run where
validation does not crash: the candidates whose validate_nameserver call
returned the candidate itself. -/
def validResolvers (dns : DnsOracle) (nameservers : List String) : List String :=
  nameservers.filterMap (fun nameserver =>
    match validate_nameserver dns nameserver with
    | .ok r => r
    | .error _ => none)

/-- src/main.py main: validate all resolvers; if the confirmed pool is empty
print a message and return, touching no domain; otherwise process every
configured domain in order.  The result is the list of output files the run
creates, one per processed domain, keyed by file name. -/
def main (dns : DnsOracle) (domains nameservers subdomains : List String) :
    List (String × Sink) :=
  let valid_nameservers := validResolvers dns nameservers
  if valid_nameservers.isEmpty then []
  else
    domains.map (fun domain =>
      (domain ++ ".txt", process_domain dns domain valid_nameservers subdomains))

/-- The candidate of the spec claim on the subdomain wordlist: a line with
only a trailing newline removed. -/
def stripTrailingNewline (s : String) : String :=
  if s.data.getLast? = some '\n' then String.mk s.data.dropLast else s

/-- Oracle for witnesses: every query succeeds. -/
def oracleAllOk : DnsOracle := fun _ _ _ => DnsOutcome.ok

/-- Oracle for witnesses: every query fails with NXDOMAIN. -/
def oracleAllFail : DnsOracle := fun _ _ _ => DnsOutcome.nxdomain

/-- Oracle for witnesses: A queries succeed, MX and CNAME probes time out. -/
def oracleAOnly : DnsOracle := fun _ _ rt =>
  match rt with
  | RType.A => DnsOutcome.ok
  | _ => DnsOutcome.queryTimeout


lemma goodDns_allOk : goodDns oracleAllOk :=
  fun _ _ _ h => DnsOutcome.noConfusion h

lemma goodDns_allFail : goodDns oracleAllFail :=
  fun _ _ _ h => DnsOutcome.noConfusion h

lemma goodDns_aOnly : goodDns oracleAOnly := by
  intro _ _ rt
  cases rt <;> exact fun h => DnsOutcome.noConfusion h

/-- Claim C4: the resolution worker returns the full hostname
subdomain.domain exactly when the A query succeeds, returns None on every
recognized DNS-level failure of the A query, and never propagates a
recognized DNS exception (under the claim's scope that all failures are of
the recognized classes, i.e. no query raises outside DNSException). -/
theorem C4_check_subdomain_contract (dns : DnsOracle) (nameserver domain subdomain : String)
    (h : ∀ rt, dns nameserver (subdomain ++ "." ++ domain) rt ≠ DnsOutcome.fatal) :
    (check_subdomain dns nameserver domain subdomain
        = Except.ok (some (subdomain ++ "." ++ domain))
      ↔ dns nameserver (subdomain ++ "." ++ domain) RType.A = DnsOutcome.ok) ∧
    (recognizedFail (dns nameserver (subdomain ++ "." ++ domain) RType.A) = true
      → check_subdomain dns nameserver domain subdomain = Except.ok none) ∧
    (∀ e : Unit, check_subdomain dns nameserver domain subdomain ≠ Except.error e) := by
  have hA := h RType.A
  have hMX := h RType.MX
  have hCN := h RType.CNAME
  cases h2 : dns nameserver (subdomain ++ "." ++ domain) RType.A <;>
    cases h3 : dns nameserver (subdomain ++ "." ++ domain) RType.MX <;>
      cases h4 : dns nameserver (subdomain ++ "." ++ domain) RType.CNAME <;>
        simp_all [check_subdomain, recognizedFail]

/-- Witness for C4 at a concrete oracle and input. -/
theorem C4_check_subdomain_contract_witness :
    (∀ rt, oracleAOnly "1.1.1.1" ("www" ++ "." ++ "example.com") rt ≠ DnsOutcome.fatal) ∧
    ((check_subdomain oracleAOnly "1.1.1.1" "example.com" "www"
        = Except.ok (some ("www" ++ "." ++ "example.com"))
      ↔ oracleAOnly "1.1.1.1" ("www" ++ "." ++ "example.com") RType.A = DnsOutcome.ok) ∧
    (recognizedFail (oracleAOnly "1.1.1.1" ("www" ++ "." ++ "example.com") RType.A) = true
      → check_subdomain oracleAOnly "1.1.1.1" "example.com" "www" = Except.ok none) ∧
    (∀ e : Unit, check_subdomain oracleAOnly "1.1.1.1" "example.com" "www" ≠ Except.error e)) :=
  ⟨by decide, C4_check_subdomain_contract oracleAOnly "1.1.1.1" "example.com" "www" (by decide)⟩

/-- Claim C9: with every failure inside the recognized DNS exception
classes, removing the MX and CNAME enrichment probes does not change the
worker's result. -/
theorem C9_enrichment_noop (dns : DnsOracle) (nameserver domain subdomain : String)
    (hMX : dns nameserver (subdomain ++ "." ++ domain) RType.MX ≠ DnsOutcome.fatal)
    (hCN : dns nameserver (subdomain ++ "." ++ domain) RType.CNAME ≠ DnsOutcome.fatal) :
    check_subdomain dns nameserver domain subdomain
      = check_subdomain_noEnrich dns nameserver domain subdomain := by
  cases h2 : dns nameserver (subdomain ++ "." ++ domain) RType.A <;>
    cases h3 : dns nameserver (subdomain ++ "." ++ domain) RType.MX <;>
      cases h4 : dns nameserver (subdomain ++ "." ++ domain) RType.CNAME <;>
        simp_all [check_subdomain, check_subdomain_noEnrich]

/-- Witness for C9 at a concrete oracle and input. -/
theorem C9_enrichment_noop_witness :
    (oracleAOnly "1.1.1.1" ("mail" ++ "." ++ "example.com") RType.MX ≠ DnsOutcome.fatal) ∧
    (oracleAOnly "1.1.1.1" ("mail" ++ "." ++ "example.com") RType.CNAME ≠ DnsOutcome.fatal) ∧
    check_subdomain oracleAOnly "1.1.1.1" "example.com" "mail"
      = check_subdomain_noEnrich oracleAOnly "1.1.1.1" "example.com" "mail" :=
  ⟨by decide, by decide,
    C9_enrichment_noop oracleAOnly "1.1.1.1" "example.com" "mail" (by decide) (by decide)⟩

/-- Claim C1: when resolver validation confirms no resolver, main returns
right after the validation phase: no domain is processed and no output file
is created (the run produces an empty file list). -/
theorem C1_empty_pool_no_output (dns : DnsOracle)
    (domains nameservers subdomains : List String)
    (h : validResolvers dns nameservers = []) :
    main dns domains nameservers subdomains = [] := by
  simp [main, h]

/-- Witness for C1: a pool of one resolver that fails validation. -/
theorem C1_empty_pool_no_output_witness :
    validResolvers oracleAllFail ["8.8.8.8"] = [] ∧
    main oracleAllFail ["example.com"] ["8.8.8.8"] ["www", "mail"] = [] :=
  ⟨by decide, C1_empty_pool_no_output oracleAllFail ["example.com"] ["8.8.8.8"]
    ["www", "mail"] (by decide)⟩

lemma mem_batchConfirmed (dns : DnsOracle) (domain : String)
    (valid_nameservers subdomains_batch : List String) (h : String) :
    h ∈ batchConfirmed dns domain valid_nameservers subdomains_batch ↔
      ∃ nameserver ∈ valid_nameservers, ∃ subdomain ∈ subdomains_batch,
        checkOpt dns domain nameserver subdomain = some h := by
  simp [batchConfirmed, List.mem_flatMap, List.mem_filterMap]

/-- Claim C2: the batch-local unique set holds each confirmed hostname
exactly once — its multiplicity in the batch's written lines is 1 when some
(resolver, candidate) task of the batch confirmed it, and 0 otherwise, no
matter how many tasks confirmed it. -/
theorem C2_batch_dedup (dns : DnsOracle) (_hg : goodDns dns) (domain : String)
    (valid_nameservers subdomains_batch : List String) :
    ∀ h : String, (batchUnique dns domain valid_nameservers subdomains_batch).count h =
      if ∃ nameserver ∈ valid_nameservers, ∃ subdomain ∈ subdomains_batch,
          checkOpt dns domain nameserver subdomain = some h
      then 1 else 0 := by
  intro h
  rw [batchUnique, List.count_dedup]
  exact if_congr (mem_batchConfirmed dns domain valid_nameservers subdomains_batch h) rfl rfl

/-- Witness for C2: one candidate confirmed through two resolvers in the
same batch is written once. -/
theorem C2_batch_dedup_witness :
    goodDns oracleAllOk ∧
    (batchUnique oracleAllOk "example.com" ["1.1.1.1", "8.8.8.8"] ["www"]).count
        "www.example.com" =
      if ∃ nameserver ∈ ["1.1.1.1", "8.8.8.8"], ∃ subdomain ∈ ["www"],
          checkOpt oracleAllOk "example.com" nameserver subdomain = some "www.example.com"
      then 1 else 0 :=
  ⟨goodDns_allOk,
    C2_batch_dedup oracleAllOk goodDns_allOk "example.com" ["1.1.1.1", "8.8.8.8"] ["www"]
      "www.example.com"⟩

lemma batchesOf_nil (B : Nat) : batchesOf B [] = [] := by
  rcases Nat.eq_zero_or_pos B with hB | hB
  · simp [batchesOf, pyRangeStep, hB]
  · simp [batchesOf, pyRangeStep, Nat.div_eq_of_lt (by omega : B - 1 < B)]

lemma batchesOf_map_form (B : Nat) (l : List String) :
    batchesOf B l = (List.range ((l.length + B - 1) / B)).map
      (fun k => (l.drop (k * B)).take B) := by
  rw [batchesOf, pyRangeStep, List.map_map]
  rfl

lemma batchesOf_cons (B : Nat) (hB : B ≠ 0) (l : List String) (hl : l ≠ []) :
    batchesOf B l = l.take B :: batchesOf B (l.drop B) := by
  have hB1 : 0 < B := Nat.pos_of_ne_zero hB
  have hn : 0 < l.length := List.length_pos.mpr hl
  have hceil : (l.length + B - 1) / B = ((l.length - B) + B - 1) / B + 1 := by
    rcases Nat.le_total l.length B with h | h
    · have e2 : l.length + B - 1 = (l.length - 1) + B := by omega
      rw [e2, Nat.add_div_right _ hB1,
        Nat.div_eq_of_lt (by omega : l.length - 1 < B),
        Nat.div_eq_of_lt (by omega : l.length - B + B - 1 < B)]
    · have e2 : l.length + B - 1 = ((l.length - B) + B - 1) + B := by omega
      rw [e2, Nat.add_div_right _ hB1]
  rw [batchesOf_map_form B l, batchesOf_map_form B (l.drop B), List.length_drop, hceil,
    List.range_succ_eq_map, List.map_cons, List.map_map]
  congr 1
  · simp
  · congr 1
    funext k
    show (l.drop (Nat.succ k * B)).take B = ((l.drop B).drop (k * B)).take B
    rw [List.drop_drop, Nat.succ_mul, Nat.add_comm (k * B) B]

lemma batchesOf_eq_nil (B : Nat) (hB : B ≠ 0) (l : List String)
    (h : batchesOf B l = []) : l = [] := by
  by_contra hnil
  rw [batchesOf_cons B hB l hnil] at h
  exact List.cons_ne_nil _ _ h

lemma batchesOf_flatten (B : Nat) (hB : B ≠ 0) :
    ∀ (n : Nat) (l : List String), l.length ≤ n → (batchesOf B l).flatten = l := by
  intro n
  induction n with
  | zero =>
    intro l hl
    rw [List.length_eq_zero.mp (Nat.le_zero.mp hl), batchesOf_nil]
    rfl
  | succ n ih =>
    intro l hl
    by_cases hnil : l = []
    · rw [hnil, batchesOf_nil]
      rfl
    · have hpos : 0 < l.length := List.length_pos.mpr hnil
      rw [batchesOf_cons B hB l hnil, List.flatten_cons,
        ih (l.drop B) (by rw [List.length_drop]; omega)]
      exact List.take_append_drop B l

lemma length_batchesOf (B : Nat) (l : List String) :
    (batchesOf B l).length = (l.length + B - 1) / B := by
  simp [batchesOf, pyRangeStep]

lemma batchesOf_dropLast (B : Nat) (hB : B ≠ 0) :
    ∀ (n : Nat) (l : List String), l.length ≤ n →
      ∀ b ∈ (batchesOf B l).dropLast, b.length = B := by
  intro n
  induction n with
  | zero =>
    intro l hl b hb
    rw [List.length_eq_zero.mp (Nat.le_zero.mp hl), batchesOf_nil] at hb
    simp at hb
  | succ n ih =>
    intro l hl b hb
    by_cases hnil : l = []
    · rw [hnil, batchesOf_nil] at hb
      simp at hb
    · rw [batchesOf_cons B hB l hnil] at hb
      by_cases hrest : batchesOf B (l.drop B) = []
      · rw [hrest] at hb
        simp at hb
      · obtain ⟨c, t, hct⟩ := List.exists_cons_of_ne_nil hrest
        rw [hct, List.dropLast_cons₂] at hb
        have hdropnil : l.drop B ≠ [] := fun hc => hrest (by rw [hc, batchesOf_nil])
        have hBlt : B < l.length := by
          have := List.length_pos.mpr hdropnil
          rw [List.length_drop] at this
          omega
        rcases List.mem_cons.mp hb with hb1 | hb2
        · rw [hb1, List.length_take, Nat.min_eq_left (Nat.le_of_lt hBlt)]
        · exact ih (l.drop B) (by rw [List.length_drop]; omega) b (by rw [hct]; exact hb2)

lemma batchesOf_getLast (B : Nat) (hB : B ≠ 0) :
    ∀ (n : Nat) (l : List String), l.length ≤ n → l ≠ [] →
      ∀ b, (batchesOf B l).getLast? = some b →
        b.length = if l.length % B = 0 then B else l.length % B := by
  intro n
  induction n with
  | zero =>
    intro l hl hnil
    exact absurd (List.length_eq_zero.mp (Nat.le_zero.mp hl)) hnil
  | succ n ih =>
    intro l hl hnil b hb
    have hpos : 0 < l.length := List.length_pos.mpr hnil
    rw [batchesOf_cons B hB l hnil] at hb
    by_cases hdrop : l.drop B = []
    · rw [hdrop, batchesOf_nil] at hb
      have hb' : b = l.take B := by
        simpa using hb.symm
      have hlen : l.length ≤ B := by
        have := List.length_eq_zero.mpr hdrop
        rw [List.length_drop] at this
        omega
      rw [hb', List.length_take, Nat.min_eq_right hlen]
      rcases Nat.lt_or_ge l.length B with hlt | hge
      · rw [Nat.mod_eq_of_lt hlt, if_neg (by omega)]
      · have heq : l.length = B := Nat.le_antisymm hlen hge
        rw [heq, Nat.mod_self, if_pos rfl]
    · have hrest : batchesOf B (l.drop B) ≠ [] :=
        fun hc => hdrop (batchesOf_eq_nil B hB (l.drop B) hc)
      obtain ⟨c, t, hct⟩ := List.exists_cons_of_ne_nil hrest
      rw [hct, List.getLast?_cons_cons] at hb
      have hBlt : B < l.length := by
        have := List.length_pos.mpr hdrop
        rw [List.length_drop] at this
        omega
      have hres := ih (l.drop B) (by rw [List.length_drop]; omega) hdrop b
        (by rw [hct]; exact hb)
      rw [List.length_drop] at hres
      rw [Nat.mod_eq_sub_mod (Nat.le_of_lt hBlt)]
      exact hres

/-- Claim C6: slicing a candidate list of length N into batches of size
B > 0 yields ceil(N/B) consecutive batches that concatenate back to the
original list; every batch before the last has length B, and the last batch
has N mod B elements, or B when B divides N. -/
theorem C6_batch_partitioning (B : Nat) (hB : 0 < B) (l : List String) :
    (batchesOf B l).flatten = l ∧
    (batchesOf B l).length = (l.length + B - 1) / B ∧
    (∀ b ∈ (batchesOf B l).dropLast, b.length = B) ∧
    (∀ b, (batchesOf B l).getLast? = some b →
      b.length = if l.length % B = 0 then B else l.length % B) := by
  have hB' : B ≠ 0 := Nat.pos_iff_ne_zero.mp hB
  refine ⟨batchesOf_flatten B hB' l.length l (Nat.le_refl _), length_batchesOf B l,
    batchesOf_dropLast B hB' l.length l (Nat.le_refl _), ?_⟩
  intro b hb
  by_cases hnil : l = []
  · rw [hnil, batchesOf_nil] at hb
    simp at hb
  · exact batchesOf_getLast B hB' l.length l (Nat.le_refl _) hnil b hb

/-- Witness for C6: seven candidates in batches of three. -/
theorem C6_batch_partitioning_witness :
    0 < 3 ∧
    ((batchesOf 3 ["a", "b", "c", "d", "e", "f", "g"]).flatten
        = ["a", "b", "c", "d", "e", "f", "g"] ∧
    (batchesOf 3 ["a", "b", "c", "d", "e", "f", "g"]).length
        = ((["a", "b", "c", "d", "e", "f", "g"] : List String).length + 3 - 1) / 3 ∧
    (∀ b ∈ (batchesOf 3 ["a", "b", "c", "d", "e", "f", "g"]).dropLast, b.length = 3) ∧
    (∀ b, (batchesOf 3 ["a", "b", "c", "d", "e", "f", "g"]).getLast? = some b →
      b.length = if (["a", "b", "c", "d", "e", "f", "g"] : List String).length % 3 = 0
        then 3 else (["a", "b", "c", "d", "e", "f", "g"] : List String).length % 3)) :=
  ⟨by decide, C6_batch_partitioning 3 (by decide) ["a", "b", "c", "d", "e", "f", "g"]⟩

lemma runBatches_fileLines (dns : DnsOracle) (domain : String)
    (valid_nameservers : List String) :
    ∀ (bs : List (List String)) (s : Sink),
      (runBatches dns domain valid_nameservers bs s).fileLines
        = s.fileLines ++ bs.flatMap (batchUnique dns domain valid_nameservers) := by
  intro bs
  induction bs with
  | nil =>
    intro s
    simp [runBatches]
  | cons b t ih =>
    intro s
    show (runBatches dns domain valid_nameservers t
      (process_batch dns domain valid_nameservers b s)).fileLines = _
    rw [ih]
    simp [process_batch, batchUnique, List.flatMap_cons, List.append_assoc]

lemma runBatches_created (dns : DnsOracle) (domain : String)
    (valid_nameservers : List String) :
    ∀ (bs : List (List String)) (s : Sink),
      (runBatches dns domain valid_nameservers bs s).created
        = (s.created || !bs.isEmpty) := by
  intro bs
  induction bs with
  | nil =>
    intro s
    simp [runBatches]
  | cons b t ih =>
    intro s
    show (runBatches dns domain valid_nameservers t
      (process_batch dns domain valid_nameservers b s)).created = _
    rw [ih]
    simp [process_batch]

lemma count_flatMap_batchUnique (dns : DnsOracle) (domain : String)
    (valid_nameservers : List String) (bs : List (List String)) (h : String) :
    (bs.flatMap (batchUnique dns domain valid_nameservers)).count h
      = bs.countP (fun b => decide (h ∈ batchConfirmed dns domain valid_nameservers b)) := by
  induction bs with
  | nil => rfl
  | cons b t ih =>
    rw [List.flatMap_cons, List.count_append, ih, List.countP_cons, batchUnique,
      List.count_dedup]
    simp only [decide_eq_true_eq]
    by_cases hmem : h ∈ batchConfirmed dns domain valid_nameservers b
    · simp [hmem, Nat.add_comm]
    · simp [hmem]

lemma two_le_countP (p : List String → Bool) :
    ∀ (l : List (List String)) (i j : Nat) (hi : i < l.length) (hj : j < l.length),
      i ≠ j → p (l.get ⟨i, hi⟩) = true → p (l.get ⟨j, hj⟩) = true → 2 ≤ l.countP p := by
  intro l
  induction l with
  | nil =>
    intro i j hi
    simp at hi
  | cons a t ih =>
    intro i j hi hj hij hpi hpj
    rw [List.countP_cons]
    cases i with
    | zero =>
      cases j with
      | zero => exact absurd rfl hij
      | succ j =>
        have hpa : p a = true := hpi
        have hj' : j < t.length := by simpa using hj
        have hpos : 0 < t.countP p :=
          List.countP_pos_iff.mpr ⟨t.get ⟨j, hj'⟩, List.get_mem t _ hj', hpj⟩
        rw [if_pos hpa]
        omega
    | succ i =>
      cases j with
      | zero =>
        have hpa : p a = true := hpj
        have hi' : i < t.length := by simpa using hi
        have hpos : 0 < t.countP p :=
          List.countP_pos_iff.mpr ⟨t.get ⟨i, hi'⟩, List.get_mem t _ hi', hpi⟩
        rw [if_pos hpa]
        omega
      | succ j =>
        have hi' : i < t.length := by simpa using hi
        have hj' : j < t.length := by simpa using hj
        have h2 := ih i j hi' hj' (by omega) hpi hpj
        split <;> omega

/-- Claim C3: deduplication is scoped to one batch — across the whole domain
run, a hostname is written once per batch that confirmed it, so one
confirmed in two different batches appears twice in the output file. -/
theorem C3_no_cross_batch_dedup (dns : DnsOracle) (_hg : goodDns dns) (domain : String)
    (valid_nameservers subdomains : List String) :
    (∀ h : String,
      (process_domain dns domain valid_nameservers subdomains).fileLines.count h
        = (batchesOf batch_size subdomains).countP
            (fun b => decide (h ∈ batchConfirmed dns domain valid_nameservers b))) ∧
    (∀ (h : String) (i j : Nat) (hi : i < (batchesOf batch_size subdomains).length)
        (hj : j < (batchesOf batch_size subdomains).length), i ≠ j →
      h ∈ batchConfirmed dns domain valid_nameservers
          ((batchesOf batch_size subdomains).get ⟨i, hi⟩) →
      h ∈ batchConfirmed dns domain valid_nameservers
          ((batchesOf batch_size subdomains).get ⟨j, hj⟩) →
      2 ≤ (process_domain dns domain valid_nameservers subdomains).fileLines.count h) := by
  have hcount : ∀ h : String,
      (process_domain dns domain valid_nameservers subdomains).fileLines.count h
        = (batchesOf batch_size subdomains).countP
            (fun b => decide (h ∈ batchConfirmed dns domain valid_nameservers b)) := by
    intro h
    show (runBatches dns domain valid_nameservers (batchesOf batch_size subdomains)
      { created := false, fileLines := [] }).fileLines.count h = _
    rw [runBatches_fileLines, List.nil_append, count_flatMap_batchUnique]
  refine ⟨hcount, ?_⟩
  intro h i j hi hj hij hmi hmj
  rw [hcount h]
  exact two_le_countP _ _ i j hi hj hij (decide_eq_true hmi) (decide_eq_true hmj)

/-- Witness for C3 at a concrete oracle and input. -/
theorem C3_no_cross_batch_dedup_witness :
    goodDns oracleAllOk ∧
    ((∀ h : String,
      (process_domain oracleAllOk "example.com" ["1.1.1.1"] ["www"]).fileLines.count h
        = (batchesOf batch_size ["www"]).countP
            (fun b => decide (h ∈ batchConfirmed oracleAllOk "example.com" ["1.1.1.1"] b))) ∧
    (∀ (h : String) (i j : Nat) (hi : i < (batchesOf batch_size ["www"]).length)
        (hj : j < (batchesOf batch_size ["www"]).length), i ≠ j →
      h ∈ batchConfirmed oracleAllOk "example.com" ["1.1.1.1"]
          ((batchesOf batch_size ["www"]).get ⟨i, hi⟩) →
      h ∈ batchConfirmed oracleAllOk "example.com" ["1.1.1.1"]
          ((batchesOf batch_size ["www"]).get ⟨j, hj⟩) →
      2 ≤ (process_domain oracleAllOk "example.com" ["1.1.1.1"] ["www"]).fileLines.count h)) :=
  ⟨goodDns_allOk, C3_no_cross_batch_dedup oracleAllOk goodDns_allOk "example.com"
    ["1.1.1.1"] ["www"]⟩

/-- Claim C7: the sink is append-only; a run stopped after batch k of m
holds exactly the concatenation of the unique sets of batches 1..k, and the
full run's file extends it without any truncation. -/
theorem C7_crash_safe_persistence (dns : DnsOracle) (_hg : goodDns dns) (domain : String)
    (valid_nameservers subdomains : List String) (k : Nat)
    (_hk : k ≤ (batchesOf batch_size subdomains).length) :
    (runBatches dns domain valid_nameservers ((batchesOf batch_size subdomains).take k)
        { created := false, fileLines := [] }).fileLines
      = ((batchesOf batch_size subdomains).take k).flatMap
          (batchUnique dns domain valid_nameservers) ∧
    ∃ rest : List String,
      (process_domain dns domain valid_nameservers subdomains).fileLines
        = (runBatches dns domain valid_nameservers
            ((batchesOf batch_size subdomains).take k)
            { created := false, fileLines := [] }).fileLines ++ rest := by
  constructor
  · rw [runBatches_fileLines, List.nil_append]
  · refine ⟨((batchesOf batch_size subdomains).drop k).flatMap
      (batchUnique dns domain valid_nameservers), ?_⟩
    show (runBatches dns domain valid_nameservers (batchesOf batch_size subdomains)
      { created := false, fileLines := [] }).fileLines = _
    rw [runBatches_fileLines, runBatches_fileLines, List.nil_append, List.nil_append]
    conv_lhs => rw [← List.take_append_drop k (batchesOf batch_size subdomains)]
    rw [List.flatMap_append]

/-- Witness for C7: stopping after the only batch of a one-batch run. -/
theorem C7_crash_safe_persistence_witness :
    goodDns oracleAllOk ∧ 1 ≤ (batchesOf batch_size ["www"]).length ∧
    ((runBatches oracleAllOk "example.com" ["1.1.1.1"]
        ((batchesOf batch_size ["www"]).take 1)
        { created := false, fileLines := [] }).fileLines
      = ((batchesOf batch_size ["www"]).take 1).flatMap
          (batchUnique oracleAllOk "example.com" ["1.1.1.1"]) ∧
    ∃ rest : List String,
      (process_domain oracleAllOk "example.com" ["1.1.1.1"] ["www"]).fileLines
        = (runBatches oracleAllOk "example.com" ["1.1.1.1"]
            ((batchesOf batch_size ["www"]).take 1)
            { created := false, fileLines := [] }).fileLines ++ rest) :=
  ⟨goodDns_allOk, by decide,
    C7_crash_safe_persistence oracleAllOk goodDns_allOk "example.com" ["1.1.1.1"] ["www"] 1
      (by decide)⟩

/-- Claim C10: every processed batch opens the output file in append mode
before returning, so after at least one batch of a domain has completed, the
file for that domain exists even when no hostname was confirmed. -/
theorem C10_file_created (dns : DnsOracle) (_hg : goodDns dns) (domain : String)
    (valid_nameservers subdomains : List String) (hs : subdomains ≠ []) :
    (∀ (batch : List String) (s : Sink),
      (process_batch dns domain valid_nameservers batch s).created = true) ∧
    (process_domain dns domain valid_nameservers subdomains).created = true := by
  refine ⟨fun batch s => rfl, ?_⟩
  show (runBatches dns domain valid_nameservers (batchesOf batch_size subdomains)
    { created := false, fileLines := [] }).created = true
  rw [runBatches_created]
  have hne : batchesOf batch_size subdomains ≠ [] :=
    fun hc => hs (batchesOf_eq_nil batch_size (by decide) subdomains hc)
  simp [List.isEmpty_iff, hne]

/-- Witness for C10: one batch of one candidate against a resolver pool
where nothing resolves still creates the (empty) output file. -/
theorem C10_file_created_witness :
    goodDns oracleAllFail ∧ (["www"] : List String) ≠ [] ∧
    ((∀ (batch : List String) (s : Sink),
      (process_batch oracleAllFail "example.com" ["1.1.1.1"] batch s).created = true) ∧
    (process_domain oracleAllFail "example.com" ["1.1.1.1"] ["www"]).created = true) :=
  ⟨goodDns_allFail, by decide,
    C10_file_created oracleAllFail goodDns_allFail "example.com" ["1.1.1.1"] ["www"]
      (by decide)⟩

lemma load_nameservers_eq (lines : List String) :
    load_nameservers lines
      = (lines.map pyStrip).filter (fun s => s != "" && is_valid_ip s) := by
  induction lines with
  | nil => rfl
  | cons a t ih =>
    show List.filterMap _ (a :: t) = _
    rw [List.filterMap_cons, List.map_cons, List.filter_cons]
    by_cases hc : (pyStrip a != "" && is_valid_ip (pyStrip a)) = true
    · rw [if_pos hc, if_pos hc]
      exact congrArg _ ih
    · rw [if_neg hc, if_neg hc]
      exact ih

/-- Claim C5: the resolver-address validator accepts exactly the strings
with four dot-separated parts each parsing as an integer in [0,255]; the
four sample strings are rejected; and the pool handed to the engine is the
file's stripped lines that are non-empty and pass the validator, in order,
every other line silently dropped. -/
theorem C5_ip_validation :
    (∀ ip : String, is_valid_ip ip = true ↔ specAcceptsIp ip) ∧
    is_valid_ip "1.2.3" = false ∧
    is_valid_ip "1.2.3.4.5" = false ∧
    is_valid_ip "1.2.3.256" = false ∧
    is_valid_ip "a.b.c.d" = false ∧
    (∀ lines : List String,
      load_nameservers lines
        = (lines.map pyStrip).filter (fun s => s != "" && is_valid_ip s)) := by
  refine ⟨?_, by decide, by decide, by decide, by decide, load_nameservers_eq⟩
  intro ip
  unfold is_valid_ip specAcceptsIp
  rw [Bool.and_eq_true, beq_iff_eq, List.all_eq_true]
  constructor
  · rintro ⟨h4, hall⟩
    refine ⟨h4, fun p hp => ?_⟩
    have h2 := hall p hp
    rw [Bool.and_eq_true] at h2
    obtain ⟨hd, hle⟩ := h2
    exact ⟨digitsVal p, by rw [parseDec?, if_pos hd], of_decide_eq_true hle⟩
  · rintro ⟨h4, hall⟩
    refine ⟨h4, fun p hp => ?_⟩
    obtain ⟨n, hn, hle⟩ := hall p hp
    rw [parseDec?] at hn
    by_cases hd : pyIsDigit p = true
    · rw [if_pos hd] at hn
      rw [Bool.and_eq_true]
      exact ⟨hd, decide_eq_true (Option.some.inj hn ▸ hle)⟩
    · rw [if_neg hd] at hn
      cases hn

/-- Counterexample to claim C8: a wordlist line with a leading space is not
delivered with only its trailing newline stripped — the code strips the
leading space as well. -/
theorem C8_counterexample :
    load_subdomains [" www\n"] = ["www"] ∧
    stripTrailingNewline " www\n" = " www" ∧
    ("www" : String) ≠ " www" :=
  ⟨by decide, by decide, by decide⟩

/-- Amended claim C8: every candidate equals its wordlist line with leading
and trailing whitespace stripped (Python str.strip); no line is dropped, so
length and order are preserved and empty lines become empty candidates. -/
theorem C8_amended_strip (lines : List String) :
    (load_subdomains lines).length = lines.length ∧
    ∀ i : Nat, (load_subdomains lines)[i]? = (lines[i]?).map pyStrip :=
  ⟨by simp [load_subdomains], fun i => by simp [load_subdomains]⟩

end GetSubDomain
